import Mathlib

/-!
Verification development for the memberlist KV init service, the HTTP error
writer and the syslog stream parser of this repository.  Go code is shallowly
embedded: structs become structures, methods become functions on explicit
state, machine integers become `Nat`, fallible operations return `Option` or
`Except`.  External collaborators that are not part of the sources (the
`services` package, the `util`/`promql`/`httpgrpc` error helpers, the KV store
internals) are modelled at their interface boundary, following the spec.
-/

namespace Loki

/-! ## Syslog stream parser (clients/pkg/promtail/targets/syslog/syslogparser) -/

/-- Framing chosen by ParseStream from the first byte of the stream. -/
inductive Framing where
  | nonTransparent
  | octetCounting
deriving DecidableEq, Repr

/-- Result of ParseStream.  `parsed f` means the parser for framing `f` was
constructed (with the callback as its listener) and run, after which the Go
function returns nil; `framingError b` is the "invalid or unsupported framing"
error returned before any parser - and hence the callback - is ever invoked;
`readError` is the error returned when peeking the first byte fails (empty or
unreadable input). -/
inductive ParseStreamResult where
  | readError
  | framingError (firstByte : Nat)
  | parsed (f : Framing)
deriving DecidableEq, Repr

/-- Embedding of ParseStream.  The input stream is the list of its bytes; an
empty list makes `buf.Peek(1)` fail, which is returned as the read error.
Byte 60 is the character LESS-THAN, bytes 48..57 are the digits 0..9. -/
def ParseStream (input : List Nat) : ParseStreamResult :=
  match input with
  | [] => ParseStreamResult.readError
  | b :: _ =>
    if b = 60 then ParseStreamResult.parsed Framing.nonTransparent
    else if 48 ≤ b ∧ b ≤ 57 then ParseStreamResult.parsed Framing.octetCounting
    else ParseStreamResult.framingError b

/-! ## HTTP error writer (pkg/..../server, file src/unnamed/part_000) -/

/-- Status code for a client-cancelled request (constant in the source). -/
def StatusClientClosedRequest : Nat := 499

/-- Message written for a client-cancelled request (constant in the source). -/
def ErrClientCanceled : String := "The request was cancelled by the client."

/-- Message written for a timed-out request (constant in the source). -/
def ErrDeadlineExceeded : String := "Request timed out, decrease the duration of the request or add more label matchers (prefer exact match over regex match) to reduce the amount of data processed."

/-- Embedding of the Go error values WriteError distinguishes.
`contextCanceled` and `contextDeadlineExceeded` are the context sentinels;
`errStorage` is promql.ErrStorage wrapping an inner error; `multiError` is
util.MultiError; `queryError` is a storage QueryError; `errLimit`, `errParse`,
`errPipeline` are the logqlmodel sentinels; `errNoOrgID` is user.ErrNoOrgID;
`rpcStatus` is a plain gRPC status error carrying its code; `httpgrpcError`
is an httpgrpc error carrying its embedded HTTP code and body (it is also a
gRPC status error, so its code is visible to status.FromError); `other` is
any other error. -/
inductive GoError where
  | contextCanceled
  | contextDeadlineExceeded
  | errStorage (inner : GoError)
  | multiError (errs : List GoError)
  | queryError (msg : String)
  | errLimit
  | errParse
  | errPipeline
  | errNoOrgID
  | rpcStatus (code : Nat) (msg : String)
  | httpgrpcError (code : Nat) (body : String)
  | other (msg : String)

mutual

/-- Boolean equality on embedded Go errors (Go compares sentinel errors by
identity; the embedding compares by structure). -/
def geBeq (a b : GoError) : Bool :=
  match a, b with
  | GoError.contextCanceled, GoError.contextCanceled => true
  | GoError.contextDeadlineExceeded, GoError.contextDeadlineExceeded => true
  | GoError.errStorage x, GoError.errStorage y => geBeq x y
  | GoError.multiError xs, GoError.multiError ys => geListBeq xs ys
  | GoError.queryError x, GoError.queryError y => x == y
  | GoError.errLimit, GoError.errLimit => true
  | GoError.errParse, GoError.errParse => true
  | GoError.errPipeline, GoError.errPipeline => true
  | GoError.errNoOrgID, GoError.errNoOrgID => true
  | GoError.rpcStatus c m, GoError.rpcStatus d n => c == d && m == n
  | GoError.httpgrpcError c m, GoError.httpgrpcError d n => c == d && m == n
  | GoError.other x, GoError.other y => x == y
  | _, _ => false

/-- Pointwise boolean equality on lists of embedded Go errors. -/
def geListBeq (xs ys : List GoError) : Bool :=
  match xs, ys with
  | [], [] => true
  | x :: xs, y :: ys => geBeq x y && geListBeq xs ys
  | _, _ => false

end

instance : BEq GoError := ⟨geBeq⟩

mutual

/-- Modelled from the spec: Go errors.Is over the embedded errors.  The spec
describes cancellation "inside a MultiError" as matching; util.MultiError
(not under src) implements Is on a non-empty collection all of whose members
match the target.  None of the other embedded errors wraps for errors.Is:
promql.ErrStorage carries its inner error in a field, which is why the source
unwraps it explicitly with errors.As. -/
def errorsIs (e t : GoError) : Bool :=
  match e with
  | GoError.multiError errs => multiErrIs errs t
  | _ => e == t

/-- Modelled from the spec: util.MultiError.Is (not under src) - true when the
collection is non-empty and every member matches the target. -/
def multiErrIs (errs : List GoError) (t : GoError) : Bool :=
  match errs with
  | [] => false
  | [e] => errorsIs e t
  | e :: rest => errorsIs e t && multiErrIs rest t

end

/-- Modelled from the spec: status.FromError (not under src) - succeeds,
yielding the gRPC code, exactly on gRPC status errors; httpgrpc errors are
status errors whose code is the embedded HTTP code. -/
def statusFromError : GoError → Option Nat
  | GoError.rpcStatus code _ => some code
  | GoError.httpgrpcError code _ => some code
  | _ => none

/-- The gRPC code DeadlineExceeded. -/
def codesDeadlineExceeded : Nat := 4

/-- Modelled from the spec: one step of util.MultiError.IsDeadlineExceeded
(not under src) - a member counts as deadline exceeded when it is a gRPC
status error with code DeadlineExceeded or matches context.DeadlineExceeded
under errors.Is. -/
def isDeadlineExceededOne (e : GoError) : Bool :=
  (match statusFromError e with
   | some c => c == codesDeadlineExceeded
   | none => false)
  || errorsIs e GoError.contextDeadlineExceeded

/-- Modelled from the spec: util.MultiError.IsDeadlineExceeded (not under
src) - non-empty and every member deadline exceeded. -/
def multiIsDeadlineExceeded (errs : List GoError) : Bool :=
  !errs.isEmpty && errs.all isDeadlineExceededOne

/-- Modelled from the spec: errors.As against storage QueryError (not under
src); no embedded error unwraps into one, so only a direct QueryError
matches. -/
def asQueryError : GoError → Bool
  | GoError.queryError _ => true
  | _ => false

/-- Modelled from the spec: errors.As against promql.ErrStorage (not under
src); only a direct ErrStorage matches, yielding its inner error. -/
def asErrStorage : GoError → Option GoError
  | GoError.errStorage inner => some inner
  | _ => none

/-- Modelled from the spec: httpgrpc.HTTPResponseFromError (not under src) -
succeeds, yielding the embedded HTTP code and body, exactly on httpgrpc
errors. -/
def httpResponseFromError : GoError → Option (Nat × String)
  | GoError.httpgrpcError code body => some (code, body)
  | _ => none

/-- Modelled from the spec: the Error() string of each embedded error; only
its value for the errors the source writes back verbatim matters. -/
def goErrorMessage : GoError → String
  | GoError.contextCanceled => "context canceled"
  | GoError.contextDeadlineExceeded => "context deadline exceeded"
  | GoError.errStorage inner => goErrorMessage inner
  | GoError.multiError _ => "multiple errors"
  | GoError.queryError msg => msg
  | GoError.errLimit => "limit reached while evaluating the query"
  | GoError.errParse => "failed to parse the log query"
  | GoError.errPipeline => "failed to execute pipeline"
  | GoError.errNoOrgID => "no org id"
  | GoError.rpcStatus _ msg => msg
  | GoError.httpgrpcError _ body => body
  | GoError.other msg => msg

/-- Embedding of the switch statement of WriteError, reached when the initial
MultiError type assertion did not short-circuit.  Returns the status code and
body handed to http.Error. -/
def writeErrorSwitch (err : GoError) : Nat × String :=
  let s := statusFromError err
  if errorsIs err GoError.contextCanceled
     || (match asErrStorage err with
         | some inner => errorsIs inner GoError.contextCanceled
         | none => false) then
    (StatusClientClosedRequest, ErrClientCanceled)
  else if errorsIs err GoError.contextDeadlineExceeded
          || s == some codesDeadlineExceeded then
    (504, ErrDeadlineExceeded)
  else if asQueryError err then
    (400, goErrorMessage err)
  else if errorsIs err GoError.errLimit || errorsIs err GoError.errParse
          || errorsIs err GoError.errPipeline then
    (400, goErrorMessage err)
  else if errorsIs err GoError.errNoOrgID then
    (400, goErrorMessage err)
  else
    match httpResponseFromError err with
    | some (code, body) => (code, body)
    | none => (500, goErrorMessage err)

/-- Embedding of WriteError: first the util.MultiError type assertion with its
two early returns, then the switch. -/
def WriteError (err : GoError) : Nat × String :=
  match err with
  | GoError.multiError errs =>
    if multiErrIs errs GoError.contextCanceled then
      (StatusClientClosedRequest, ErrClientCanceled)
    else if multiIsDeadlineExceeded errs then
      (504, ErrDeadlineExceeded)
    else writeErrorSwitch err
  | _ => writeErrorSwitch err

/-- The sentinel errors the source matches with errors.Is: the two context
sentinels, the three logqlmodel sentinels and the missing org ID. -/
def sentinelErr (t : GoError) : Prop :=
  t = GoError.contextCanceled ∨ t = GoError.contextDeadlineExceeded
  ∨ t = GoError.errLimit ∨ t = GoError.errParse
  ∨ t = GoError.errPipeline ∨ t = GoError.errNoOrgID

/-! ## Memberlist KV store interface
(vendor/github.com/grafana/dskit/kv/memberlist)

The store itself (kv.go) is not among the sources; only its interface as used
by kv_init_service.go and described by the spec is modelled. -/

/-- Modelled from the spec: the Codec capability (decode, encode); decoded
values are opaque payloads, embedded as strings.  The merge operation is not
needed by the claims under verification. -/
structure Codec where
  Decode : List Nat → Except String String
  Encode : String → Except String (List Nat)

/-- Modelled from the spec: the ValueDescriptor stored per key - opaque
value (nil-able, hence `Option`), version counter and codec identifier.
A key absent from the Go map reads as the zero descriptor, whose value is
nil. -/
structure valueDesc where
  value : Option String
  version : Nat
  codecID : String

/-- Modelled from the spec: the (key, value, codec id) pair carried by a
gossip message; the value is raw bytes prior to decoding. -/
structure KeyValuePair where
  Key : String
  Value : List Nat
  Codec : String

/-- Modelled from the spec: an entry of the message log - sequential
identifier plus the carried pair (the fields the debug handler reads). -/
structure message where
  ID : Int
  Pair : KeyValuePair

/-- Lifecycle phase of a dskit service (the services package is not among the
sources); `terminated` and `failed` are the terminal phases. -/
inductive SvcPhase where
  | starting
  | running
  | terminated
  | failed
deriving DecidableEq, Repr

/-- Modelled from the spec: the state of the Value Store, Message Log and
membership snapshot behind the KV handle, together with its service lifecycle
phase and recorded failure.  The Go map `store` reads absent keys as the zero
valueDesc. -/
structure KV where
  codecs : String → Option Codec
  store : String → valueDesc
  sentMessages : List message
  receivedMessages : List message
  members : List String
  phase : SvcPhase
  failure : Option String

/-- Modelled from the spec: codec registry lookup - the codec registered
under the identifier, or absent. -/
def KV.GetCodec (kv : KV) (codecID : String) : Option Codec :=
  kv.codecs codecID

/-- Modelled from the spec: the copy-on-read snapshot of the store; in the
pure embedding the snapshot is the mapping itself. -/
def KV.storeCopy (kv : KV) : String → valueDesc :=
  kv.store

/-- Modelled from the spec: the message log accessor returning the sent and
received messages. -/
def KV.getSentAndReceivedMessages (kv : KV) : List message × List message :=
  (kv.sentMessages, kv.receivedMessages)

/-- Modelled from the spec: clearing the message log deletes all sent and
received messages and touches nothing else. -/
def KV.deleteSentReceivedMessages (kv : KV) : KV :=
  { kv with sentMessages := [], receivedMessages := [] }

/-- Modelled from the spec: services.StopAndAwaitTerminated (not under src) -
requests the store to stop and waits for it to reach a terminal state,
returning the failure that caused an abnormal termination, if any. -/
def stopAndAwaitTerminated (kv : KV) : KV × Option String :=
  match kv.failure with
  | some e => ({ kv with phase := SvcPhase.failed }, some e)
  | none => ({ kv with phase := SvcPhase.terminated }, none)

/-! ## KVInitService (vendor/github.com/grafana/dskit/kv/memberlist/kv_init_service.go) -/

/-- The construction environment of the wrapper.  `newKV` is the store that
NewKV builds from the wrapper's config, logger, DNS provider and registerer
(all fixed at wrapper construction); `startErr` is the result of
StartAsync on it. -/
structure KVConfig where
  newKV : KV
  startErr : Option String

/-- State of KVInitService: the config, the sync.Once guard (`initDone`),
the atomically published KV (`kv`, nil before initialization), the recorded
initialization error (`err`) and the services registered with the failure
watcher (`watched`). -/
structure KVInitService where
  cfg : KVConfig
  initDone : Bool
  kv : Option KV
  err : Option String
  watched : List KV

/-- Embedding of NewKVInitService: fresh wrapper, nothing initialized. -/
def NewKVInitService (cfg : KVConfig) : KVInitService :=
  { cfg := cfg, initDone := false, kv := none, err := none, watched := [] }

/-- Embedding of getKV: the KV if it was initialized, or nil. -/
def KVInitService.getKV (kvs : KVInitService) : Option KV :=
  kvs.kv

/-- Embedding of GetMemberlistKV.  The sync.Once body - construct the KV,
register it with the failure watcher, start it recording the error, publish
it - runs only when the guard has not fired yet; sync.Once runs the body
atomically and exactly once, so a trace of concurrent calls is embedded as a
sequence of calls to this function.  Returns the new wrapper state and the
(kv, err) pair handed to the caller. -/
def KVInitService.GetMemberlistKV (kvs : KVInitService) :
    KVInitService × Option KV × Option String :=
  let kvs2 :=
    if kvs.initDone then kvs
    else
      let kv := kvs.cfg.newKV
      { kvs with
          initDone := true
          watched := kvs.watched ++ [kv]
          err := kvs.cfg.startErr
          kv := some kv }
  (kvs2, kvs2.getKV, kvs2.err)

/-- A trace of n sequential GetMemberlistKV calls (sync.Once serializes the
initialization bodies of concurrent callers): final wrapper state and the
list of results the n callers receive, in call order. -/
def runCalls (kvs : KVInitService) : Nat → KVInitService × List (Option KV × Option String)
  | 0 => (kvs, [])
  | Nat.succ n =>
    let r := kvs.GetMemberlistKV
    let rest := runCalls r.1 n
    (rest.1, r.2 :: rest.2)

/-- The event that wakes the running loop: the context's done channel fires,
or the failure watcher's channel delivers the error of a failed watched
service. -/
inductive RunSignal where
  | ctxDone
  | watcherFailure (err : String)

/-- Embedding of the running method: the select over ctx.Done() and
watcher.Chan() - nil on the stop signal, the watched failure otherwise. -/
def KVInitService.running (_kvs : KVInitService) (sig : RunSignal) : Option String :=
  match sig with
  | RunSignal.ctxDone => none
  | RunSignal.watcherFailure e => some e

/-- Embedding of the stopping method: nil if the KV was never initialized,
otherwise stop the KV and await a terminal state. -/
def KVInitService.stopping (kvs : KVInitService) : KVInitService × Option String :=
  match kvs.getKV with
  | none => (kvs, none)
  | some kv =>
    let r := stopAndAwaitTerminated kv
    ({ kvs with kv := some r.1 }, r.2)

/-! ## Debug HTTP handler (ServeHTTP and its helpers) -/

/-- An incoming debug HTTP request: whether req.ParseForm() succeeded, the
parsed form (a Go map from parameter name to its values; absent parameters
read as the empty list) and the Accept header. -/
structure Request where
  parseFormOk : Bool
  form : String → List String
  accept : String

/-- Embedding of getFormat: the first value of the format parameter, or the
empty string. -/
def getFormat (req : Request) : String :=
  match req.form "format" with
  | v :: _ => v
  | [] => ""

/-- The response written by the handler.  `plainText` is a direct body write;
`httpError` is http.Error with its status code and body; `redirect` is a
Location header plus status code; `formatted` is formatValue's rendering of a
value under the requested format; `download` is the octet-stream attachment
with the descriptor version, key and encoded bytes; `pageJSON` and `pageHTML`
are the two renderings of the main status page. -/
inductive Response where
  | plainText (body : String)
  | httpError (code : Nat) (body : String)
  | redirect (code : Nat) (location : String)
  | formatted (val : String) (format : String)
  | download (version : Nat) (key : String) (content : List Nat)
  | pageJSON (members : List String) (store : String → valueDesc)
      (sent received : List message)
  | pageHTML (members : List String) (store : String → valueDesc)
      (sent received : List message)

/-- Embedding of formatValue: the value is rendered under the requested
format (JSON, indented JSON, or the default Go verb); the rendering itself is
presentation and is kept abstract. -/
def formatValue (val : String) (format : String) : Response :=
  Response.formatted val format

/-- Embedding of viewMessage: look up the message's codec - absent yields the
404 "codec not found" error - then decode its raw value - failure yields a
500 - and render the decoded value. -/
def viewMessage (kv : KV) (msg : message) (format : String) : Response :=
  match kv.GetCodec msg.Pair.Codec with
  | none => Response.httpError 404 "codec not found"
  | some c =>
    match c.Decode msg.Pair.Value with
    | Except.error e => Response.httpError 500 ("failed to decode: " ++ e)
    | Except.ok val => formatValue val format

/-- Embedding of viewKey: a key whose descriptor holds no value yields the
404 "value not found" error, otherwise the value is rendered. -/
def viewKey (store : String → valueDesc) (key : String) (format : String) : Response :=
  match (store key).value with
  | none => Response.httpError 404 "value not found"
  | some v => formatValue v format

/-- Embedding of downloadKey: absent value yields 404 "value not found";
absent codec yields 404 "codec not found"; encoding failure yields a 500;
otherwise the encoded bytes are served as an attachment. -/
def downloadKey (kv : KV) (store : String → valueDesc) (key : String) : Response :=
  match (store key).value with
  | none => Response.httpError 404 "value not found"
  | some v =>
    match kv.GetCodec ((store key).codecID) with
    | none => Response.httpError 404 "codec not found"
    | some c =>
      match c.Encode v with
      | Except.error e => Response.httpError 500 ("failed to encode: " ++ e)
      | Except.ok encoded => Response.download ((store key).version) key encoded

/-- Insertion of a member name into a name-sorted list (sort.Slice orders
members by name). -/
def insertSorted (x : String) : List String → List String
  | [] => [x]
  | y :: ys => if x ≤ y then x :: y :: ys else y :: insertSorted x ys

/-- The name-sorted membership snapshot rendered by the status page. -/
def sortMembers (l : List String) : List String :=
  l.foldr insertSorted []

/-- Embedding of the main status page: the pageData - sorted members, store
snapshot, sent and received messages - rendered as JSON when the Accept
header asks for it, as HTML otherwise. -/
def mainPage (kv : KV) (req : Request) : Response :=
  let sent := kv.getSentAndReceivedMessages.1
  let received := kv.getSentAndReceivedMessages.2
  if (req.accept.splitOn "application/json").length > 1 then
    Response.pageJSON (sortMembers kv.members) kv.storeCopy sent received
  else
    Response.pageHTML (sortMembers kv.members) kv.storeCopy sent received

/-- Embedding of ServeHTTP.  An uninitialized KV yields the plain-text
notice.  Otherwise, when the form parsed, the handler dispatches on the first
matching parameter in source order - downloadKey, viewKey, viewMsg (whose
first value goes through strconv.Atoi, embedded as String.toInt?, a parse
failure yielding a 400 with the parse error text), deleteMessages (first
value "true" clears the message log and redirects back) - and falls through
to the main page.  The returned state is the wrapper state after the request;
only the clearing branch differs from the input state. -/
def KVInitService.ServeHTTP (kvs : KVInitService) (req : Request) :
    KVInitService × Response :=
  match kvs.getKV with
  | none => (kvs, Response.plainText "This instance doesn't use memberlist.")
  | some kv =>
    if req.parseFormOk then
      match req.form "downloadKey" with
      | dk :: _ => (kvs, downloadKey kv kv.storeCopy dk)
      | [] =>
        match req.form "viewKey" with
        | vk :: _ => (kvs, viewKey kv.storeCopy vk (getFormat req))
        | [] =>
          match req.form "viewMsg" with
          | vm :: _ =>
            (match vm.toInt? with
             | none => (kvs, Response.httpError 400 "invalid syntax")
             | some msgID =>
               match (kv.getSentAndReceivedMessages.1 ++
                      kv.getSentAndReceivedMessages.2).find?
                       (fun m => m.ID == msgID) with
               | some m => (kvs, viewMessage kv m (getFormat req))
               | none => (kvs, Response.httpError 404 "message not found"))
          | [] =>
            match req.form "deleteMessages" with
            | dm :: _ =>
              if dm = "true" then
                ({ kvs with kv := some kv.deleteSentReceivedMessages },
                 Response.redirect 302 "?deleteMessages=false")
              else (kvs, mainPage kv req)
            | [] => (kvs, mainPage kv req)
    else (kvs, mainPage kv req)

/-- A request clears the message log exactly when the form parsed, none of
the earlier-dispatched parameters is present, and the first value of the
deleteMessages parameter is "true". -/
def clearRequest (req : Request) : Bool :=
  req.parseFormOk
  && (req.form "downloadKey").isEmpty
  && (req.form "viewKey").isEmpty
  && (req.form "viewMsg").isEmpty
  && (match req.form "deleteMessages" with
      | v :: _ => v == "true"
      | [] => false)

/-- The wrapper state right after the sync.Once body has run: guard fired,
store published, start error recorded, the one constructed store watched. -/
def initializedState (cfg : KVConfig) : KVInitService :=
  { cfg := cfg
    initDone := true
    kv := some cfg.newKV
    err := cfg.startErr
    watched := [cfg.newKV] }

/-! ## Concrete instances used to exercise the definitions -/

/-- A store with no registered codecs, empty state. -/
def emptyKV : KV :=
  { codecs := fun _ => none
    store := fun _ => { value := none, version := 0, codecID := "" }
    sentMessages := []
    receivedMessages := []
    members := []
    phase := SvcPhase.running
    failure := none }

/-- A config whose store starts successfully. -/
def cfg0 : KVConfig :=
  { newKV := emptyKV, startErr := none }

/-- A config whose store fails to start. -/
def cfgFail : KVConfig :=
  { newKV := emptyKV, startErr := some "memberlist: failed to start" }

/-- A logged message whose codec identifier is not registered. -/
def msg0 : message :=
  { ID := 7, Pair := { Key := "k", Value := [1, 2], Codec := "ring" } }

/-- A store mapping holding a value under an unregistered codec identifier. -/
def store0 : String → valueDesc :=
  fun _ => { value := some "v", version := 3, codecID := "ring" }

/-- A KV holding `msg0` in its log and `store0` as its store, with no codec
registered. -/
def kvWithMsg : KV :=
  { emptyKV with sentMessages := [msg0], store := store0 }

/-- An initialized wrapper around `kvWithMsg`. -/
def kvsInit : KVInitService :=
  { cfg := cfg0, initDone := true, kv := some kvWithMsg, err := none,
    watched := [kvWithMsg] }

/-- A request with an empty form. -/
def reqPlain : Request :=
  { parseFormOk := true, form := fun _ => [], accept := "" }

/-- A request asking to delete the logged messages. -/
def reqDelete : Request :=
  { parseFormOk := true
    form := fun k => if k = "deleteMessages" then ["true"] else []
    accept := "" }

/-- A request asking to view message 7. -/
def reqViewMsg : Request :=
  { parseFormOk := true
    form := fun k => if k = "viewMsg" then ["7"] else []
    accept := "" }

/-- A request asking to download key "k". -/
def reqDownload : Request :=
  { parseFormOk := true
    form := fun k => if k = "downloadKey" then ["k"] else []
    accept := "" }

/-! ## Lemmas about the init-once wrapper -/

theorem getMemberlistKV_done (kvs : KVInitService) (h : kvs.initDone = true) :
    kvs.GetMemberlistKV = (kvs, kvs.kv, kvs.err) := by
  simp [KVInitService.GetMemberlistKV, KVInitService.getKV, h]

theorem runCalls_done (kvs : KVInitService) (h : kvs.initDone = true) (n : Nat) :
    runCalls kvs n = (kvs, List.replicate n (kvs.kv, kvs.err)) := by
  induction n with
  | zero => rfl
  | succ n ih =>
    simp [runCalls, getMemberlistKV_done kvs h, ih, List.replicate_succ]

theorem getMemberlistKV_fresh (cfg : KVConfig) :
    (NewKVInitService cfg).GetMemberlistKV =
      (initializedState cfg, some cfg.newKV, cfg.startErr) := rfl

theorem runCalls_fresh (cfg : KVConfig) (m : Nat) :
    runCalls (NewKVInitService cfg) (m + 1) =
      (initializedState cfg,
       List.replicate (m + 1) (some cfg.newKV, cfg.startErr)) := by
  have hdone : (initializedState cfg).initDone = true := rfl
  have hkv : (initializedState cfg).kv = some cfg.newKV := rfl
  have herr : (initializedState cfg).err = cfg.startErr := rfl
  simp [runCalls, getMemberlistKV_fresh, runCalls_done (initializedState cfg) hdone m,
        hkv, herr, List.replicate_succ]

/-! ## Claim theorems -/

/-- C1: for every sequence of GetMemberlistKV calls the store is constructed
and started at most once - every call, the first included, returns the same
store instance and the same initialization error (nil on success), a recorded
failure is returned to every later caller, and the wrapper state after the
first call never changes again (no re-initialization: exactly one store is
ever watched). -/
theorem GetMemberlistKV_initializes_once (cfg : KVConfig) (n : Nat) (h : 1 ≤ n) :
    (runCalls (NewKVInitService cfg) n).2 =
      List.replicate n (some cfg.newKV, cfg.startErr)
    ∧ (runCalls (NewKVInitService cfg) n).1 = initializedState cfg := by
  obtain ⟨m, rfl⟩ : ∃ m, n = m + 1 :=
    ⟨n - 1, (Nat.succ_pred_eq_of_pos h).symm⟩
  rw [runCalls_fresh cfg m]
  exact ⟨rfl, rfl⟩

/-- Witness for C1: three calls against a failing config all see the failure,
and the final state is the once-initialized one. -/
theorem GetMemberlistKV_initializes_once_witness :
    (runCalls (NewKVInitService cfgFail) 3).2 =
      List.replicate 3 (some cfgFail.newKV, cfgFail.startErr)
    ∧ (runCalls (NewKVInitService cfgFail) 3).1 = initializedState cfgFail :=
  GetMemberlistKV_initializes_once cfgFail 3 (by decide)

/-- C2: a trace of N concurrent GetMemberlistKV calls (serialized by the
sync.Once guard) constructs and starts exactly one store - exactly one
service is ever registered with the failure watcher - and every one of the N
callers receives that same instance and the same (possibly nil) error. -/
theorem GetMemberlistKV_concurrent_exactly_once (cfg : KVConfig) (n : Nat) (h : 0 < n) :
    ((runCalls (NewKVInitService cfg) n).1.watched) = [cfg.newKV]
    ∧ ∀ r ∈ (runCalls (NewKVInitService cfg) n).2,
        r = (some cfg.newKV, cfg.startErr) := by
  obtain ⟨m, rfl⟩ : ∃ m, n = m + 1 :=
    ⟨n - 1, (Nat.succ_pred_eq_of_pos h).symm⟩
  rw [runCalls_fresh cfg m]
  exact ⟨rfl, fun r hr => List.eq_of_mem_replicate hr⟩

/-- Witness for C2: two concurrent callers, one watched store, identical
results. -/
theorem GetMemberlistKV_concurrent_exactly_once_witness :
    ((runCalls (NewKVInitService cfg0) 2).1.watched) = [cfg0.newKV]
    ∧ ∀ r ∈ (runCalls (NewKVInitService cfg0) 2).2,
        r = (some cfg0.newKV, cfg0.startErr) :=
  GetMemberlistKV_concurrent_exactly_once cfg0 2 (by decide)

/-- C3: the running loop returns nil on the external stop signal and returns
exactly the reported failure when the failure watcher delivers one. -/
theorem running_distinguishes_stop_and_failure (kvs : KVInitService) :
    kvs.running RunSignal.ctxDone = none
    ∧ ∀ e : String, kvs.running (RunSignal.watcherFailure e) = some e :=
  ⟨rfl, fun _ => rfl⟩

/-- C4: stopping is a no-op success when the store was never initialized,
and otherwise stops the store and awaits a terminal phase before
returning. -/
theorem stopping_noop_or_awaits_terminal (kvs : KVInitService) :
    (kvs.kv = none → kvs.stopping = (kvs, none))
    ∧ ∀ kv, kvs.kv = some kv →
        ∃ kv2 e, kvs.stopping = ({ kvs with kv := some kv2 }, e)
          ∧ (kv2.phase = SvcPhase.terminated ∨ kv2.phase = SvcPhase.failed) := by
  constructor
  · intro h
    simp [KVInitService.stopping, KVInitService.getKV, h]
  · intro kv h
    cases hf : kv.failure with
    | none =>
      exact ⟨{ kv with phase := SvcPhase.terminated }, none,
        by simp [KVInitService.stopping, KVInitService.getKV, h,
                 stopAndAwaitTerminated, hf],
        Or.inl rfl⟩
    | some e =>
      exact ⟨{ kv with phase := SvcPhase.failed }, some e,
        by simp [KVInitService.stopping, KVInitService.getKV, h,
                 stopAndAwaitTerminated, hf],
        Or.inr rfl⟩

/-- Witness for C4: stop before any acquire returns immediately without
error and leaves the state unchanged. -/
theorem stopping_noop_or_awaits_terminal_witness :
    (NewKVInitService cfg0).stopping = (NewKVInitService cfg0, none) :=
  (stopping_noop_or_awaits_terminal (NewKVInitService cfg0)).1 rfl

/-- C8: serving a debug request against an uninitialized wrapper writes the
plain-text notice and returns with the wrapper state - init guard, stored KV
and error - unchanged; the init function is never run. -/
theorem ServeHTTP_uninitialized_notice (kvs : KVInitService) (req : Request)
    (h : kvs.kv = none) :
    kvs.ServeHTTP req =
      (kvs, Response.plainText "This instance doesn't use memberlist.") := by
  simp [KVInitService.ServeHTTP, KVInitService.getKV, h]

/-- Witness for C8: a fresh wrapper serves the notice unchanged. -/
theorem ServeHTTP_uninitialized_notice_witness :
    (NewKVInitService cfg0).ServeHTTP reqPlain =
      (NewKVInitService cfg0,
       Response.plainText "This instance doesn't use memberlist.") :=
  ServeHTTP_uninitialized_notice (NewKVInitService cfg0) reqPlain rfl

/-- C10: ParseStream chooses the framing from the first byte alone - LESS-THAN
selects the non-transparent parser, a decimal digit selects the
octet-counting parser (the Go function then returning nil), any other first
byte yields the framing error before any parser, hence the callback, is
invoked, and the empty input yields the read error. -/
theorem ParseStream_first_byte (b : Nat) (rest : List Nat) :
    ParseStream [] = ParseStreamResult.readError
    ∧ (b = 60 →
        ParseStream (b :: rest) = ParseStreamResult.parsed Framing.nonTransparent)
    ∧ (48 ≤ b → b ≤ 57 →
        ParseStream (b :: rest) = ParseStreamResult.parsed Framing.octetCounting)
    ∧ (b ≠ 60 → ¬(48 ≤ b ∧ b ≤ 57) →
        ParseStream (b :: rest) = ParseStreamResult.framingError b) := by
  refine ⟨rfl, ?_, ?_, ?_⟩
  · intro hb
    simp [ParseStream, hb]
  · intro h1 h2
    have hb : b ≠ 60 := by omega
    simp [ParseStream, hb, h1, h2]
  · intro hb hd
    simp [ParseStream, hb, hd]

/-- Frame lemma for the debug handler: every request either leaves the
wrapper state untouched, or is the clear-messages request, whose only effect
is clearing the message log of the initialized KV. -/
theorem ServeHTTP_state (kvs : KVInitService) (req : Request) :
    (kvs.ServeHTTP req).1 = kvs
    ∨ (clearRequest req = true ∧ ∃ kv, kvs.kv = some kv ∧
        (kvs.ServeHTTP req).1 =
          { kvs with kv := some kv.deleteSentReceivedMessages }) := by
  unfold KVInitService.ServeHTTP
  cases hkv : kvs.getKV with
  | none => left; rfl
  | some kv =>
    simp only [KVInitService.getKV] at hkv
    by_cases hpf : req.parseFormOk
    · simp only [hpf, if_true]
      cases hdl : req.form "downloadKey" with
      | cons d ds => left; rfl
      | nil =>
        cases hvk : req.form "viewKey" with
        | cons v vs => left; rfl
        | nil =>
          cases hvm : req.form "viewMsg" with
          | cons v vs =>
            cases hti : v.toInt? with
            | none => left; simp [hti]
            | some msgID =>
              cases hfind : (kv.getSentAndReceivedMessages.1 ++
                  kv.getSentAndReceivedMessages.2).find? (fun m => m.ID == msgID) with
              | some m => left; simp [hti, hfind]
              | none => left; simp [hti, hfind]
          | nil =>
            cases hdm : req.form "deleteMessages" with
            | nil => left; rfl
            | cons dm dms =>
              by_cases hdm2 : dm = "true"
              · right
                refine ⟨?_, kv, hkv, ?_⟩
                · simp [clearRequest, hpf, hdl, hvk, hvm, hdm, hdm2]
                · simp [hdm2]
              · left
                simp [hdm2]
    · simp [hpf]

/-- C6: every debug request - status page, key view or download, message
view, member and message listing - is read-only on the wrapper: the only
request that changes anything is the explicit clear-messages request, and it
only empties the sent and received message logs, leaving the key-value store
and everything else unchanged. -/
theorem ServeHTTP_read_only (kvs : KVInitService) (req : Request) :
    (kvs.ServeHTTP req).1 = kvs
    ∨ (clearRequest req = true ∧ ∃ kv, kvs.kv = some kv ∧
        (kvs.ServeHTTP req).1 =
          { kvs with kv := some ({ kv with sentMessages := [], receivedMessages := [] }) }) := by
  rcases ServeHTTP_state kvs req with h | ⟨hc, kv, hkv, hres⟩
  · exact Or.inl h
  · exact Or.inr ⟨hc, kv, hkv, by
      simpa [KV.deleteSentReceivedMessages] using hres⟩

/-- C5: an absent codec is surfaced as the 404 "codec not found" diagnostic
by both the message-view and the key-download paths, and neither path - nor
any downloadKey or viewMsg request - mutates the wrapper or store state. -/
theorem codec_absent_is_diagnostic :
    (∀ (kv : KV) (msg : message) (format : String),
       kv.GetCodec msg.Pair.Codec = none →
       viewMessage kv msg format = Response.httpError 404 "codec not found")
    ∧ (∀ (kv : KV) (store : String → valueDesc) (key : String),
       (store key).value ≠ none →
       kv.GetCodec ((store key).codecID) = none →
       downloadKey kv store key = Response.httpError 404 "codec not found")
    ∧ (∀ (kvs : KVInitService) (req : Request) (v : String) (vs : List String),
       req.form "downloadKey" = v :: vs → (kvs.ServeHTTP req).1 = kvs)
    ∧ (∀ (kvs : KVInitService) (req : Request) (v : String) (vs : List String),
       req.form "viewMsg" = v :: vs → (kvs.ServeHTTP req).1 = kvs) := by
  refine ⟨?_, ?_, ?_, ?_⟩
  · intro kv msg format h
    simp [viewMessage, h]
  · intro kv store key hv hc
    cases hval : (store key).value with
    | none => exact absurd hval hv
    | some v => simp [downloadKey, hval, hc]
  · intro kvs req v vs hdl
    rcases ServeHTTP_state kvs req with h | ⟨hc, _, _, _⟩
    · exact h
    · exfalso
      simp [clearRequest, hdl] at hc
  · intro kvs req v vs hvm
    rcases ServeHTTP_state kvs req with h | ⟨hc, _, _, _⟩
    · exact h
    · exfalso
      simp [clearRequest, hvm] at hc

/-- Witness for C5: with no codec registered, viewing a logged message and
downloading a stored key both answer 404 "codec not found", and the
corresponding requests leave the wrapper state untouched. -/
theorem codec_absent_is_diagnostic_witness :
    viewMessage kvWithMsg msg0 "" = Response.httpError 404 "codec not found"
    ∧ downloadKey emptyKV store0 "k" = Response.httpError 404 "codec not found"
    ∧ (kvsInit.ServeHTTP reqDownload).1 = kvsInit
    ∧ (kvsInit.ServeHTTP reqViewMsg).1 = kvsInit :=
  ⟨codec_absent_is_diagnostic.1 kvWithMsg msg0 "" rfl,
   codec_absent_is_diagnostic.2.1 emptyKV store0 "k" (by decide) rfl,
   codec_absent_is_diagnostic.2.2.1 kvsInit reqDownload "k" [] (by decide),
   codec_absent_is_diagnostic.2.2.2 kvsInit reqViewMsg "7" [] (by decide)⟩

/-- C7: a deleteMessages form parameter whose value is "true" (when no
earlier-dispatched parameter is present) clears the whole message log - sent
and received - and answers a redirect back; any other value leaves the log
and the rest of the state unchanged. -/
theorem deleteMessages_true_clears (kvs : KVInitService) (kv : KV) (req : Request)
    (dm : String) (rest : List String)
    (hkv : kvs.kv = some kv) (hpf : req.parseFormOk = true)
    (h1 : req.form "downloadKey" = []) (h2 : req.form "viewKey" = [])
    (h3 : req.form "viewMsg" = []) (h4 : req.form "deleteMessages" = dm :: rest) :
    (dm = "true" →
      kvs.ServeHTTP req =
        ({ kvs with kv := some ({ kv with sentMessages := [], receivedMessages := [] }) },
         Response.redirect 302 "?deleteMessages=false"))
    ∧ (dm ≠ "true" → (kvs.ServeHTTP req).1 = kvs) := by
  constructor
  · intro hdm
    simp [KVInitService.ServeHTTP, KVInitService.getKV, hkv, hpf, h1, h2, h3, h4,
          hdm, KV.deleteSentReceivedMessages]
  · intro hdm
    simp [KVInitService.ServeHTTP, KVInitService.getKV, hkv, hpf, h1, h2, h3, h4,
          hdm]

/-- Witness for C7: the clear request empties both logs of the initialized
store and redirects back. -/
theorem deleteMessages_true_clears_witness :
    kvsInit.ServeHTTP reqDelete =
      ({ kvsInit with kv := some ({ kvWithMsg with sentMessages := [], receivedMessages := [] }) },
       Response.redirect 302 "?deleteMessages=false") :=
  (deleteMessages_true_clears kvsInit kvWithMsg reqDelete "true" []
    rfl rfl (by decide) (by decide) (by decide) (by decide)).1 rfl

/-! ## Lemmas about the error matching helpers -/

theorem multiErrIs_eq_true_iff (errs : List GoError) (t : GoError) :
    multiErrIs errs t = true ↔ errs ≠ [] ∧ ∀ e ∈ errs, errorsIs e t = true := by
  induction errs with
  | nil => simp [multiErrIs]
  | cons e rest ih =>
    cases rest with
    | nil => simp [multiErrIs]
    | cons f rest2 =>
      have hstep : multiErrIs (e :: f :: rest2) t
          = (errorsIs e t && multiErrIs (f :: rest2) t) := rfl
      rw [hstep, Bool.and_eq_true, ih]
      constructor
      · rintro ⟨h1, -, h2⟩
        refine ⟨by simp, ?_⟩
        intro x hx
        rcases List.mem_cons.mp hx with rfl | hx2
        · exact h1
        · exact h2 x hx2
      · rintro ⟨-, hall⟩
        exact ⟨hall e (by simp), by simp,
          fun x hx => hall x (List.mem_cons_of_mem _ hx)⟩

theorem errorsIs_multi (errs : List GoError) (t : GoError) :
    errorsIs (GoError.multiError errs) t = multiErrIs errs t := rfl

theorem geBeq_sentinel (e t : GoError) (ht : sentinelErr t) :
    geBeq e t = true ↔ e = t := by
  rcases ht with rfl | rfl | rfl | rfl | rfl | rfl <;> cases e <;> simp [geBeq]

theorem errorsIs_sentinel_cases (e t : GoError) (ht : sentinelErr t)
    (h : errorsIs e t = true) : e = t ∨ ∃ errs, e = GoError.multiError errs := by
  cases e
  case multiError errs => exact Or.inr ⟨errs, rfl⟩
  all_goals exact Or.inl ((geBeq_sentinel _ t ht).mp h)

theorem statusFromError_sentinel (e t : GoError) (ht : sentinelErr t)
    (h : errorsIs e t = true) : statusFromError e = none := by
  rcases errorsIs_sentinel_cases e t ht h with rfl | ⟨errs, rfl⟩
  · rcases ht with rfl | rfl | rfl | rfl | rfl | rfl <;> rfl
  · rfl

theorem errorsIs_sentinel_disjoint_aux (n : Nat) :
    ∀ e t1 t2, sizeOf e ≤ n → sentinelErr t1 → sentinelErr t2 → t1 ≠ t2 →
      errorsIs e t1 = true → errorsIs e t2 = false := by
  induction n with
  | zero =>
    intro e t1 t2 he h1 h2 hne hIs
    exfalso
    cases e <;> simp at he
  | succ n ih =>
    intro e t1 t2 he h1 h2 hne hIs
    rcases errorsIs_sentinel_cases e t1 h1 hIs with rfl | ⟨errs, rfl⟩
    · cases hgb : errorsIs e t2 with
      | false => rfl
      | true =>
        exfalso
        rcases errorsIs_sentinel_cases e t2 h2 hgb with heq | ⟨errs2, heq⟩
        · exact hne heq
        · rcases h1 with rfl | rfl | rfl | rfl | rfl | rfl <;>
            exact GoError.noConfusion heq
    · have hms : multiErrIs errs t1 = true := hIs
      obtain ⟨hne2, hall⟩ := (multiErrIs_eq_true_iff errs t1).mp hms
      show multiErrIs errs t2 = false
      cases hd : multiErrIs errs t2 with
      | false => rfl
      | true =>
        exfalso
        obtain ⟨-, hall2⟩ := (multiErrIs_eq_true_iff errs t2).mp hd
        obtain ⟨e0, he0⟩ : ∃ x, x ∈ errs := by
          cases errs with
          | nil => exact absurd rfl hne2
          | cons a l => exact ⟨a, by simp⟩
        have hlt : sizeOf e0 < sizeOf (GoError.multiError errs) := by
          have hx : sizeOf e0 < sizeOf errs := List.sizeOf_lt_of_mem he0
          have hy : sizeOf (GoError.multiError errs) = 1 + sizeOf errs := by
            simp [GoError.multiError.sizeOf_spec]
          omega
        have hres := ih e0 t1 t2 (by omega) h1 h2 hne (hall e0 he0)
        rw [hall2 e0 he0] at hres
        exact Bool.noConfusion hres

theorem errorsIs_sentinel_disjoint (e t1 t2 : GoError) (h1 : sentinelErr t1)
    (h2 : sentinelErr t2) (hne : t1 ≠ t2) (h : errorsIs e t1 = true) :
    errorsIs e t2 = false :=
  errorsIs_sentinel_disjoint_aux (sizeOf e) e t1 t2 (Nat.le_refl _) h1 h2 hne h

theorem multiErrIs_disjoint (errs : List GoError) (t1 t2 : GoError)
    (h1 : sentinelErr t1) (h2 : sentinelErr t2) (hne : t1 ≠ t2)
    (h : multiErrIs errs t1 = true) : multiErrIs errs t2 = false := by
  cases hd : multiErrIs errs t2 with
  | false => rfl
  | true =>
    exfalso
    obtain ⟨hne2, hall⟩ := (multiErrIs_eq_true_iff errs t1).mp h
    obtain ⟨-, hall2⟩ := (multiErrIs_eq_true_iff errs t2).mp hd
    obtain ⟨e0, he0⟩ : ∃ x, x ∈ errs := by
      cases errs with
      | nil => exact absurd rfl hne2
      | cons a l => exact ⟨a, by simp⟩
    have hdis := errorsIs_sentinel_disjoint e0 t1 t2 h1 h2 hne (hall e0 he0)
    rw [hall2 e0 he0] at hdis
    exact Bool.noConfusion hdis

theorem multiIsDeadlineExceeded_of_all (errs : List GoError)
    (h : multiErrIs errs GoError.contextDeadlineExceeded = true) :
    multiIsDeadlineExceeded errs = true := by
  obtain ⟨hne, hall⟩ := (multiErrIs_eq_true_iff errs _).mp h
  have hne2 : errs.isEmpty = false := by
    cases errs with
    | nil => exact absurd rfl hne
    | cons a l => rfl
  simp only [multiIsDeadlineExceeded, hne2, Bool.not_false, Bool.true_and,
             List.all_eq_true]
  intro x hx
  simp [isDeadlineExceededOne, hall x hx]

theorem multiErrIs_deadline_false (errs : List GoError)
    (h : multiIsDeadlineExceeded errs = false) :
    multiErrIs errs GoError.contextDeadlineExceeded = false := by
  cases hd : multiErrIs errs GoError.contextDeadlineExceeded with
  | false => rfl
  | true =>
    exfalso
    have hx := multiIsDeadlineExceeded_of_all errs hd
    rw [h] at hx
    exact Bool.noConfusion hx

theorem multiIsDeadlineExceeded_false_of (errs : List GoError) (t : GoError)
    (ht : sentinelErr t) (hne : t ≠ GoError.contextDeadlineExceeded)
    (h : multiErrIs errs t = true) : multiIsDeadlineExceeded errs = false := by
  cases hd : multiIsDeadlineExceeded errs with
  | false => rfl
  | true =>
    exfalso
    obtain ⟨hne2, hall⟩ := (multiErrIs_eq_true_iff errs t).mp h
    have hall2 : ∀ x ∈ errs, isDeadlineExceededOne x = true := by
      have hd2 := hd
      simp only [multiIsDeadlineExceeded, Bool.and_eq_true,
                 List.all_eq_true] at hd2
      exact hd2.2
    obtain ⟨e0, he0⟩ : ∃ x, x ∈ errs := by
      cases errs with
      | nil => exact absurd rfl hne2
      | cons a l => exact ⟨a, by simp⟩
    have h1 := hall e0 he0
    have h2 := hall2 e0 he0
    have hsf : statusFromError e0 = none := statusFromError_sentinel e0 t ht h1
    simp only [isDeadlineExceededOne, hsf, Bool.false_or] at h2
    have hdis := errorsIs_sentinel_disjoint e0 t GoError.contextDeadlineExceeded
      ht (Or.inr (Or.inl rfl)) hne h1
    rw [h2] at hdis
    exact Bool.noConfusion hdis

/-- C9: WriteError maps every error to exactly one status by a fixed
priority - client cancellation (directly, as an all-cancelled MultiError, or
wrapped in promql.ErrStorage) to 499 with the client-cancelled message;
deadline exceeded (directly, as a MultiError whose members all time out, or
as gRPC code DeadlineExceeded, on a plain status error or an httpgrpc error)
to 504; a storage QueryError, the logqlmodel limit, parse and pipeline
errors and a missing org ID (directly or as an all-matching MultiError) to
400; any other httpgrpc error to its embedded code and body; every other
error - a non-deadline status error, an ErrStorage around a non-cancelled
error, a mixed or empty MultiError, any remaining error - to 500.  The
conjuncts cover the whole error space: every constructor of GoError falls
under exactly one of them. -/
theorem WriteError_fixed_priority :
    (∀ e, errorsIs e GoError.contextCanceled = true →
       WriteError e = (StatusClientClosedRequest, ErrClientCanceled))
    ∧ (∀ inner, errorsIs inner GoError.contextCanceled = true →
       WriteError (GoError.errStorage inner)
         = (StatusClientClosedRequest, ErrClientCanceled))
    ∧ (∀ e, errorsIs e GoError.contextDeadlineExceeded = true →
       WriteError e = (504, ErrDeadlineExceeded))
    ∧ (∀ errs, multiErrIs errs GoError.contextCanceled = false →
       multiIsDeadlineExceeded errs = true →
       WriteError (GoError.multiError errs) = (504, ErrDeadlineExceeded))
    ∧ (∀ msg, WriteError (GoError.rpcStatus codesDeadlineExceeded msg)
         = (504, ErrDeadlineExceeded))
    ∧ (∀ body, WriteError (GoError.httpgrpcError codesDeadlineExceeded body)
         = (504, ErrDeadlineExceeded))
    ∧ (∀ msg, WriteError (GoError.queryError msg) = (400, msg))
    ∧ WriteError GoError.errLimit = (400, goErrorMessage GoError.errLimit)
    ∧ WriteError GoError.errParse = (400, goErrorMessage GoError.errParse)
    ∧ WriteError GoError.errPipeline = (400, goErrorMessage GoError.errPipeline)
    ∧ WriteError GoError.errNoOrgID = (400, goErrorMessage GoError.errNoOrgID)
    ∧ (∀ errs t, (t = GoError.errLimit ∨ t = GoError.errParse
         ∨ t = GoError.errPipeline ∨ t = GoError.errNoOrgID) →
       multiErrIs errs t = true →
       WriteError (GoError.multiError errs)
         = (400, goErrorMessage (GoError.multiError errs)))
    ∧ (∀ code body, code ≠ codesDeadlineExceeded →
       WriteError (GoError.httpgrpcError code body) = (code, body))
    ∧ (∀ code msg, code ≠ codesDeadlineExceeded →
       WriteError (GoError.rpcStatus code msg) = (500, msg))
    ∧ (∀ inner, errorsIs inner GoError.contextCanceled = false →
       WriteError (GoError.errStorage inner)
         = (500, goErrorMessage (GoError.errStorage inner)))
    ∧ (∀ errs, multiErrIs errs GoError.contextCanceled = false →
       multiIsDeadlineExceeded errs = false →
       multiErrIs errs GoError.errLimit = false →
       multiErrIs errs GoError.errParse = false →
       multiErrIs errs GoError.errPipeline = false →
       multiErrIs errs GoError.errNoOrgID = false →
       WriteError (GoError.multiError errs)
         = (500, goErrorMessage (GoError.multiError errs)))
    ∧ (∀ msg, WriteError (GoError.other msg) = (500, msg)) := by
  refine ⟨?_, ?_, ?_, ?_, ?_, ?_, ?_, rfl, rfl, rfl, rfl, ?_, ?_, ?_, ?_, ?_, ?_⟩
  · intro e hc
    cases e with
    | contextCanceled => rfl
    | multiError errs =>
      have hc2 : multiErrIs errs GoError.contextCanceled = true := hc
      simp [WriteError, hc2]
    | contextDeadlineExceeded => exact Bool.noConfusion hc
    | errStorage inner => exact Bool.noConfusion hc
    | queryError m => exact Bool.noConfusion hc
    | errLimit => exact Bool.noConfusion hc
    | errParse => exact Bool.noConfusion hc
    | errPipeline => exact Bool.noConfusion hc
    | errNoOrgID => exact Bool.noConfusion hc
    | rpcStatus c m => exact Bool.noConfusion hc
    | httpgrpcError c m => exact Bool.noConfusion hc
    | other m => exact Bool.noConfusion hc
  · intro inner hc
    have h1 : errorsIs (GoError.errStorage inner) GoError.contextCanceled
        = false := rfl
    simp [WriteError, writeErrorSwitch, h1, asErrStorage, hc,
          StatusClientClosedRequest]
  · intro e hd
    cases e with
    | contextDeadlineExceeded => rfl
    | multiError errs =>
      have hd2 : multiErrIs errs GoError.contextDeadlineExceeded = true := hd
      have hnc : multiErrIs errs GoError.contextCanceled = false :=
        multiErrIs_disjoint errs GoError.contextDeadlineExceeded
          GoError.contextCanceled (Or.inr (Or.inl rfl)) (Or.inl rfl)
          (fun hx => GoError.noConfusion hx) hd2
      have hdx := multiIsDeadlineExceeded_of_all errs hd2
      simp [WriteError, hnc, hdx]
    | contextCanceled => exact Bool.noConfusion hd
    | errStorage inner => exact Bool.noConfusion hd
    | queryError m => exact Bool.noConfusion hd
    | errLimit => exact Bool.noConfusion hd
    | errParse => exact Bool.noConfusion hd
    | errPipeline => exact Bool.noConfusion hd
    | errNoOrgID => exact Bool.noConfusion hd
    | rpcStatus c m => exact Bool.noConfusion hd
    | httpgrpcError c m => exact Bool.noConfusion hd
    | other m => exact Bool.noConfusion hd
  · intro errs h1 h2
    simp [WriteError, h1, h2]
  · intro msg
    rfl
  · intro body
    rfl
  · intro msg
    rfl
  · intro errs t ht h
    have hts : sentinelErr t := by
      rcases ht with rfl | rfl | rfl | rfl
      · exact Or.inr (Or.inr (Or.inl rfl))
      · exact Or.inr (Or.inr (Or.inr (Or.inl rfl)))
      · exact Or.inr (Or.inr (Or.inr (Or.inr (Or.inl rfl))))
      · exact Or.inr (Or.inr (Or.inr (Or.inr (Or.inr rfl))))
    have hcanF : multiErrIs errs GoError.contextCanceled = false :=
      multiErrIs_disjoint errs t GoError.contextCanceled hts (Or.inl rfl)
        (by rcases ht with rfl | rfl | rfl | rfl <;>
              exact fun hx => GoError.noConfusion hx) h
    have hdlF : multiIsDeadlineExceeded errs = false :=
      multiIsDeadlineExceeded_false_of errs t hts
        (by rcases ht with rfl | rfl | rfl | rfl <;>
              exact fun hx => GoError.noConfusion hx) h
    have hdF : multiErrIs errs GoError.contextDeadlineExceeded = false :=
      multiErrIs_deadline_false errs hdlF
    rcases ht with rfl | rfl | rfl | rfl
    · simp [WriteError, writeErrorSwitch, hcanF, hdlF, hdF, errorsIs_multi, h,
            statusFromError, asErrStorage, asQueryError]
    · simp [WriteError, writeErrorSwitch, hcanF, hdlF, hdF, errorsIs_multi, h,
            statusFromError, asErrStorage, asQueryError]
    · simp [WriteError, writeErrorSwitch, hcanF, hdlF, hdF, errorsIs_multi, h,
            statusFromError, asErrStorage, asQueryError]
    · have hL : multiErrIs errs GoError.errLimit = false :=
        multiErrIs_disjoint errs GoError.errNoOrgID GoError.errLimit hts
          (Or.inr (Or.inr (Or.inl rfl))) (fun hx => GoError.noConfusion hx) h
      have hP : multiErrIs errs GoError.errParse = false :=
        multiErrIs_disjoint errs GoError.errNoOrgID GoError.errParse hts
          (Or.inr (Or.inr (Or.inr (Or.inl rfl))))
          (fun hx => GoError.noConfusion hx) h
      have hPl : multiErrIs errs GoError.errPipeline = false :=
        multiErrIs_disjoint errs GoError.errNoOrgID GoError.errPipeline hts
          (Or.inr (Or.inr (Or.inr (Or.inr (Or.inl rfl)))))
          (fun hx => GoError.noConfusion hx) h
      simp [WriteError, writeErrorSwitch, hcanF, hdlF, hdF, errorsIs_multi, h,
            hL, hP, hPl, statusFromError, asErrStorage, asQueryError]
  · intro code body h
    have h1 : errorsIs (GoError.httpgrpcError code body)
        GoError.contextCanceled = false := rfl
    have h2 : errorsIs (GoError.httpgrpcError code body)
        GoError.contextDeadlineExceeded = false := rfl
    have h3 : errorsIs (GoError.httpgrpcError code body)
        GoError.errLimit = false := rfl
    have h4 : errorsIs (GoError.httpgrpcError code body)
        GoError.errParse = false := rfl
    have h5 : errorsIs (GoError.httpgrpcError code body)
        GoError.errPipeline = false := rfl
    have h6 : errorsIs (GoError.httpgrpcError code body)
        GoError.errNoOrgID = false := rfl
    simp only [codesDeadlineExceeded] at h
    simp [WriteError, writeErrorSwitch, h1, h2, h3, h4, h5, h6,
          statusFromError, asErrStorage, asQueryError, httpResponseFromError,
          codesDeadlineExceeded, h]
  · intro code msg h
    have h1 : errorsIs (GoError.rpcStatus code msg)
        GoError.contextCanceled = false := rfl
    have h2 : errorsIs (GoError.rpcStatus code msg)
        GoError.contextDeadlineExceeded = false := rfl
    have h3 : errorsIs (GoError.rpcStatus code msg)
        GoError.errLimit = false := rfl
    have h4 : errorsIs (GoError.rpcStatus code msg)
        GoError.errParse = false := rfl
    have h5 : errorsIs (GoError.rpcStatus code msg)
        GoError.errPipeline = false := rfl
    have h6 : errorsIs (GoError.rpcStatus code msg)
        GoError.errNoOrgID = false := rfl
    simp only [codesDeadlineExceeded] at h
    simp [WriteError, writeErrorSwitch, h1, h2, h3, h4, h5, h6,
          statusFromError, asErrStorage, asQueryError, httpResponseFromError,
          goErrorMessage, codesDeadlineExceeded, h]
  · intro inner hc
    have h1 : errorsIs (GoError.errStorage inner)
        GoError.contextCanceled = false := rfl
    have h2 : errorsIs (GoError.errStorage inner)
        GoError.contextDeadlineExceeded = false := rfl
    have h3 : errorsIs (GoError.errStorage inner)
        GoError.errLimit = false := rfl
    have h4 : errorsIs (GoError.errStorage inner)
        GoError.errParse = false := rfl
    have h5 : errorsIs (GoError.errStorage inner)
        GoError.errPipeline = false := rfl
    have h6 : errorsIs (GoError.errStorage inner)
        GoError.errNoOrgID = false := rfl
    simp [WriteError, writeErrorSwitch, h1, h2, h3, h4, h5, h6,
          statusFromError, asErrStorage, asQueryError, httpResponseFromError,
          hc]
  · intro errs hcan hdl hL hP hPl hNo
    have hdF : multiErrIs errs GoError.contextDeadlineExceeded = false :=
      multiErrIs_deadline_false errs hdl
    simp [WriteError, writeErrorSwitch, hcan, hdl, errorsIs_multi, hdF,
          hL, hP, hPl, hNo, statusFromError, asErrStorage, asQueryError,
          httpResponseFromError]
  · intro msg
    rfl

/-- Witness for C9: one representative per mapped class, the 500 fallbacks
included - a cancelled context, a cancelled context inside ErrStorage, an
all-deadline MultiError, an httpgrpc error with gRPC code DeadlineExceeded,
an all-limit MultiError, an ordinary httpgrpc error, a non-deadline status
error, an ErrStorage around a non-cancelled error, and a mixed
MultiError. -/
theorem WriteError_fixed_priority_witness :
    WriteError GoError.contextCanceled
      = (StatusClientClosedRequest, ErrClientCanceled)
    ∧ WriteError (GoError.errStorage GoError.contextCanceled)
      = (StatusClientClosedRequest, ErrClientCanceled)
    ∧ WriteError (GoError.multiError
        [GoError.contextDeadlineExceeded, GoError.contextDeadlineExceeded])
      = (504, ErrDeadlineExceeded)
    ∧ WriteError (GoError.httpgrpcError codesDeadlineExceeded "deadline body")
      = (504, ErrDeadlineExceeded)
    ∧ WriteError (GoError.multiError [GoError.errLimit, GoError.errLimit])
      = (400, goErrorMessage
          (GoError.multiError [GoError.errLimit, GoError.errLimit]))
    ∧ WriteError (GoError.httpgrpcError 429 "too many outstanding requests")
      = (429, "too many outstanding requests")
    ∧ WriteError (GoError.rpcStatus 13 "internal error")
      = (500, "internal error")
    ∧ WriteError (GoError.errStorage GoError.contextDeadlineExceeded)
      = (500, goErrorMessage (GoError.errStorage GoError.contextDeadlineExceeded))
    ∧ WriteError (GoError.multiError
        [GoError.contextCanceled, GoError.contextDeadlineExceeded])
      = (500, goErrorMessage (GoError.multiError
          [GoError.contextCanceled, GoError.contextDeadlineExceeded])) := by
  obtain ⟨c1, c2, c3, c4, c5, c6, c7, c8, c9, c10, c11, c12, c13, c14, c15,
          c16, c17⟩ := WriteError_fixed_priority
  exact ⟨c1 GoError.contextCanceled rfl,
         c2 GoError.contextCanceled rfl,
         c3 (GoError.multiError
           [GoError.contextDeadlineExceeded, GoError.contextDeadlineExceeded]) rfl,
         c6 "deadline body",
         c12 [GoError.errLimit, GoError.errLimit] GoError.errLimit
           (Or.inl rfl) rfl,
         c13 429 "too many outstanding requests" (by decide),
         c14 13 "internal error" (by decide),
         c15 GoError.contextDeadlineExceeded rfl,
         c16 [GoError.contextCanceled, GoError.contextDeadlineExceeded]
           rfl rfl rfl rfl rfl rfl⟩

/-- Witness for C10: one stream per framing choice plus one rejected
stream. -/
theorem ParseStream_first_byte_witness :
    ParseStream [60, 49] = ParseStreamResult.parsed Framing.nonTransparent
    ∧ ParseStream [53, 49] = ParseStreamResult.parsed Framing.octetCounting
    ∧ ParseStream [65] = ParseStreamResult.framingError 65 :=
  ⟨(ParseStream_first_byte 60 [49]).2.1 rfl,
   (ParseStream_first_byte 53 [49]).2.2.1 (by decide) (by decide),
   (ParseStream_first_byte 65 []).2.2.2 (by decide) (by decide)⟩

end Loki
